import Mathlib

/-!
Shallow embedding of the ownership-scoped resource management layer of
`src/app.py` — a small Flask note/image application — together with the
contracts of its `database` module, which is not among the sources and is
therefore modelled from the specification (credential store, note store,
image metadata store).

State is passed explicitly: the relational record store (`DB`), the blob
store directory listing, and the session's current user form an `AppState`,
and every request handler is a function `AppState → inputs → AppState × Resp`.
An uncaught Python exception (KeyError, IndexError) is modelled by the
`Resp.crash` response together with the state as mutated up to the raising
point.
-/

/-- The character with code 39, a single quote. -/
def quoteChar : Char := Char.ofNat 39

/-- The character with code 32, a space. -/
def spaceChar : Char := Char.ofNat 32

/-- A note metadata row: note id, owner user id, text content. -/
structure Note where
  nid : String
  owner : String
  text : String
deriving DecidableEq

/-- An image metadata row: unique id, owner user id, sanitized original
filename, upload timestamp (app.py:225-227 inserts exactly these fields). -/
structure Image where
  uid : String
  owner : String
  filename : String
  timestamp : String
deriving DecidableEq

/-- The relational record store behind the missing `database` module:
credential rows (user id, password), note rows, image metadata rows. -/
structure DB where
  creds : List (String × String)
  notes : List Note
  images : List Image
deriving DecidableEq

/-- Application state: the database, the blob-store directory listing
(`os.listdir(app.config["UPLOAD_FOLDER"])`), and the session's current user
(`session.get("current_user", None)`). -/
structure AppState where
  db : DB
  blobs : List String
  session : Option String
deriving DecidableEq

/-- Responses produced by the handlers of `app.py`: a redirect
(`redirect(url_for(target))`), an aborted request (`abort(code)`), the admin
page re-rendered with the duplicate or the invalid flag set
(app.py:316-318, 326-328), or an uncaught Python exception. -/
inductive Resp where
  | redirect (target : String)
  | httpError (code : Nat)
  | adminDuplicate
  | adminInvalid
  | crash (msg : String)
deriving DecidableEq

/-- Modelled from the spec: `listUserIds() -> set of string` — the
`list_users` function of the missing `database` module returns the ids of
the credential rows. -/
def list_users (db : DB) : List String := db.creds.map (fun c => c.1)

/-- Modelled from the spec: `verify(id, password) -> bool` — the credential
store accepts the pair iff a matching credential row exists (the `verify`
function of the missing `database` module). -/
def verify (db : DB) (id pw : String) : Bool :=
  db.creds.any (fun c => c.1 == id && c.2 == pw)

/-- Modelled from the spec: `ownerOfNote(noteId) -> ownerId | NotFound` —
the `match_user_id_with_note_id` function of the missing `database` module;
`NotFound` is `none`, which in Python is the `None` returned to the
comparison in `FUN_delete_note`. -/
def match_user_id_with_note_id (db : DB) (nid : String) : Option String :=
  (db.notes.find? (fun n => n.nid == nid)).map (fun n => n.owner)

/-- Modelled from the spec: `ownerOfImage(imageId) -> ownerId | NotFound` —
the `match_user_id_with_image_uid` function of the missing `database`
module. -/
def match_user_id_with_image_uid (db : DB) (uid : String) : Option String :=
  (db.images.find? (fun i => i.uid == uid)).map (fun i => i.owner)

/-- Modelled from the spec: `deleteNote(noteId)` removes the note row. -/
def delete_note_from_db (db : DB) (nid : String) : DB :=
  { db with notes := db.notes.filter (fun n => n.nid != nid) }

/-- Modelled from the spec: `deleteImageMeta(imageId)` removes the image
metadata row. -/
def delete_image_from_db (db : DB) (uid : String) : DB :=
  { db with images := db.images.filter (fun i => i.uid != uid) }

/-- Modelled from the spec: `listImagesFor(ownerId) -> sequence of
(imageId, filename, timestamp)`. -/
def list_images_for_user (db : DB) (owner : String) : List (String × String × String) :=
  (db.images.filter (fun i => i.owner == owner)).map
    (fun i => (i.uid, i.filename, i.timestamp))

/-- Modelled from the spec: `insertImage(imageId, ownerId, filename,
timestamp)` — the `image_upload_record` function of the missing `database`
module appends the metadata row. -/
def image_upload_record (db : DB) (uid owner filename ts : String) : DB :=
  { db with images := db.images ++ [⟨uid, owner, filename, ts⟩] }

/-- Modelled from the spec: `insertNote(ownerId, text) -> noteId` — the
fresh note id is produced inside the missing `database` module, so it is
passed here explicitly. -/
def write_note_into_db (db : DB) (owner text nid : String) : DB :=
  { db with notes := db.notes ++ [⟨nid, owner, text⟩] }

/-- Modelled from the spec: deleting a user removes the credential row and
cascades to every Note and Image metadata row it owned ("deleting a user
removes every Note and Image metadata row it owned"). -/
def delete_user_from_db (db : DB) (id : String) : DB :=
  { creds := db.creds.filter (fun c => c.1 != id),
    notes := db.notes.filter (fun n => n.owner != id),
    images := db.images.filter (fun i => i.owner != id) }

/-- Modelled from the spec: "otherwise create with given id/password" — the
`add_user` function of the missing `database` module stores the pair. -/
def add_user (db : DB) (id pw : String) : DB :=
  { db with creds := db.creds ++ [(id, pw)] }

/-- Python `c in s`: the string contains the character. -/
def strContains (s : String) (c : Char) : Bool := s.data.contains c

/-- Python `s.lower()`: every character lower-cased. -/
def strLower (s : String) : String := String.mk (s.data.map Char.toLower)

/-- Python `s.upper()`: every character upper-cased. -/
def strUpper (s : String) : String := String.mk (s.data.map Char.toUpper)

/-- `y.split("-", 1)[0]`: the part of a filename before the first dash,
the whole string when there is no dash (app.py:244, 291). -/
def beforeDash (s : String) : String :=
  String.mk (s.data.takeWhile (fun c => c != '-'))

/-- `filename.rsplit(".", 1)[1]`: the final extension segment, the part
after the last dot (app.py:201; meaningful once the string contains a
dot). -/
def afterLastDot (s : String) : String :=
  String.mk ((s.data.reverse.takeWhile (fun c => c != '.')).reverse)

/-- `ALLOWED_EXTENSIONS = set(["png", "jpg", "jpeg", "gif"])` (app.py:197). -/
def ALLOWED_EXTENSIONS : List String := ["png", "jpg", "jpeg", "gif"]

/-- `allowed_file` (app.py:200-201): the filename contains a dot and its
final extension segment, lower-cased, is in the allow-list. -/
def allowed_file (filename : String) : Bool :=
  strContains filename '.' && ALLOWED_EXTENSIONS.contains (strLower (afterLastDot filename))

/-- `FUN_write_note` (app.py:177-182): reads `session["current_user"]`
unconditionally — a missing session key raises `KeyError` — then inserts
the note and redirects to the private page. -/
def FUN_write_note (st : AppState) (text nid : String) : AppState × Resp :=
  match st.session with
  | none => (st, .crash "KeyError")
  | some u =>
    ({ st with db := write_note_into_db st.db u text nid }, .redirect "FUN_private")

/-- `FUN_delete_note` (app.py:185-193): the session's current user (or
`None`) is compared with the note's owner lookup (or `None`); on equality
the row is deleted and the handler redirects, otherwise `abort(401)`. -/
def FUN_delete_note (st : AppState) (nid : String) : AppState × Resp :=
  if st.session = match_user_id_with_note_id st.db nid then
    ({ st with db := delete_note_from_db st.db nid }, .redirect "FUN_private")
  else (st, .httpError 401)

/-- The file part of an upload request: absent (`"file" not in
request.files`), or present carrying the browser-supplied filename. -/
inductive FilePart where
  | absent
  | present (filename : String)

/-- `FUN_upload_image` (app.py:204-230), parameterized by the external
`secure_filename` (werkzeug) and `sha1` (hashlib) primitives. The extension
check runs on the original filename; on an accepted upload the blob
`<uid>-<sanitizedFilename>` is saved first, and only then is
`session["current_user"]` read — with no session the handler raises
`KeyError` after the blob write. -/
def FUN_upload_image (secureFilename sha1 : String → String)
    (st : AppState) (fp : FilePart) (now : String) : AppState × Resp :=
  match fp with
  | .absent => (st, .redirect "FUN_private")
  | .present fn =>
    if fn = "" then (st, .redirect "FUN_private")
    else if allowed_file fn then
      match st.session with
      | none =>
        ({ st with blobs :=
            st.blobs ++ [sha1 (now ++ secureFilename fn) ++ "-" ++ secureFilename fn] },
         .crash "KeyError")
      | some u =>
        ({ st with
            blobs :=
              st.blobs ++ [sha1 (now ++ secureFilename fn) ++ "-" ++ secureFilename fn],
            db := image_upload_record st.db (sha1 (now ++ secureFilename fn)) u
              (secureFilename fn) now },
         .redirect "FUN_private")
    else (st, .redirect "FUN_private")

/-- `FUN_delete_image` (app.py:233-249): the ownership comparison is
between `session.get("current_user", None)` and the owner lookup; on
success the metadata row is deleted first, then the first blob whose
before-dash segment equals the uid is removed — an empty match list raises
`IndexError` after the metadata row is already gone. -/
def FUN_delete_image (st : AppState) (uid : String) : AppState × Resp :=
  if st.session = match_user_id_with_image_uid st.db uid then
    match st.blobs.filter (fun y => beforeDash y == uid) with
    | [] => ({ st with db := delete_image_from_db st.db uid }, .crash "IndexError")
    | b :: _ =>
      ({ st with db := delete_image_from_db st.db uid, blobs := st.blobs.erase b },
       .redirect "FUN_private")
  else (st, .httpError 401)

/-- `FUN_login` (app.py:253-270): uppercases the submitted id, sets the
session only when the id is a known user and the password verifies, and
returns the same redirect to the root page in either case. -/
def FUN_login (st : AppState) (idForm pwForm : String) : AppState × Resp :=
  if (list_users st.db).contains (strUpper idForm)
      && verify st.db (strUpper idForm) pwForm then
    ({ st with session := some (strUpper idForm) }, .redirect "FUN_root")
  else (st, .redirect "FUN_root")

/-- The blob-removal loop of `FUN_delete_user` (app.py:286-295): for each
image uid in turn, remove the first blob whose before-dash segment equals
it; an empty match list raises `IndexError`, with the blobs removed so far
as the surviving directory state. -/
def removeBlobsFor (blobs : List String) (uids : List String) :
    Except (List String) (List String) :=
  match uids with
  | [] => .ok blobs
  | f :: rest =>
    match blobs.filter (fun y => beforeDash y == f) with
    | [] => .error blobs
    | b :: _ => removeBlobsFor (blobs.erase b) rest

/-- `FUN_delete_user` (app.py:279-300): admin-only (`abort(401)`
otherwise); the id "ADMIN" itself is refused with `abort(403)`; then every
blob of an image owned by the target is removed from the pool, and finally
the database records are deleted. -/
def FUN_delete_user (st : AppState) (id : String) : AppState × Resp :=
  if st.session = some "ADMIN" then
    if id = "ADMIN" then (st, .httpError 403)
    else
      match removeBlobsFor st.blobs ((list_images_for_user st.db id).map (fun x => x.1)) with
      | .error partialBlobs => ({ st with blobs := partialBlobs }, .crash "IndexError")
      | .ok blobs2 =>
        ({ st with blobs := blobs2, db := delete_user_from_db st.db id },
         .redirect "FUN_admin")
  else (st, .httpError 401)

/-- `FUN_add_user` (app.py:303-333): admin-only (`abort(401)` otherwise);
the submitted id uppercased must not already be a user id (else the admin
page re-renders flagged duplicate); then the raw submitted id must contain
no space and no single quote (else flagged invalid); otherwise the raw
id/password pair is handed to `add_user`. -/
def FUN_add_user (st : AppState) (idForm pwForm : String) : AppState × Resp :=
  if st.session = some "ADMIN" then
    if (list_users st.db).contains (strUpper idForm) then (st, .adminDuplicate)
    else if strContains idForm spaceChar || strContains idForm quoteChar then
      (st, .adminInvalid)
    else ({ st with db := add_user st.db idForm pwForm }, .redirect "FUN_admin")
  else (st, .httpError 401)

/-- C1: for every image whose owner resolves to A, a requester B with
B ≠ A and B ≠ "ADMIN" gets `abort(401)` and the state (metadata and blobs)
is unchanged; the owner A succeeds, the response is the redirect to the
private page, the metadata row is deleted and the matching blob is removed
(assuming the blob-store invariant that exactly one blob matches the id). -/
theorem delete_image_owner_only
    (st : AppState) (uid A : String)
    (hown : match_user_id_with_image_uid st.db uid = some A) :
    (∀ B, st.session = some B → B ≠ A → B ≠ "ADMIN" →
        FUN_delete_image st uid = (st, .httpError 401)) ∧
    (∀ b, st.session = some A →
        st.blobs.filter (fun y => beforeDash y == uid) = [b] →
        FUN_delete_image st uid =
          ({ st with db := delete_image_from_db st.db uid, blobs := st.blobs.erase b },
           .redirect "FUN_private")) := by
  constructor
  · intro B hB hBA _
    unfold FUN_delete_image
    rw [hown, hB]
    simp [hBA]
  · intro b hA hfilter
    unfold FUN_delete_image
    rw [hown, hA, hfilter]
    simp

/-- C1 witness: in a two-user state, BOB cannot delete ALICE's image (401,
state untouched) while ALICE's own deletion removes the row and the blob. -/
theorem delete_image_owner_only_witness :
    (FUN_delete_image
        ⟨⟨[("ALICE", "a"), ("BOB", "b")], [], [⟨"u1", "ALICE", "c.png", "t0"⟩]⟩,
          ["u1-c.png"], some "BOB"⟩ "u1"
      = (⟨⟨[("ALICE", "a"), ("BOB", "b")], [], [⟨"u1", "ALICE", "c.png", "t0"⟩]⟩,
          ["u1-c.png"], some "BOB"⟩, .httpError 401)) ∧
    (FUN_delete_image
        ⟨⟨[("ALICE", "a"), ("BOB", "b")], [], [⟨"u1", "ALICE", "c.png", "t0"⟩]⟩,
          ["u1-c.png"], some "ALICE"⟩ "u1"
      = (⟨⟨[("ALICE", "a"), ("BOB", "b")], [], []⟩, [], some "ALICE"⟩,
         .redirect "FUN_private")) := by
  constructor
  · exact (delete_image_owner_only _ "u1" "ALICE" (by decide)).1 "BOB" rfl
      (by decide) (by decide)
  · have h := (delete_image_owner_only
      ⟨⟨[("ALICE", "a"), ("BOB", "b")], [], [⟨"u1", "ALICE", "c.png", "t0"⟩]⟩,
        ["u1-c.png"], some "ALICE"⟩ "u1" "ALICE" (by decide)).2 "u1-c.png" rfl (by decide)
    exact h.trans (by decide)

/-- C2 counterexample: with requester ALICE (not ADMIN), deleting the user
id "ADMIN" is rejected with `abort(401)` (Unauthorized), not with the 403
Forbidden the claim asserts for every requester. -/
theorem delete_admin_forbidden_cex :
    (FUN_delete_user ⟨⟨[("ADMIN", "p"), ("ALICE", "a")], [], []⟩, [], some "ALICE"⟩
        "ADMIN").2 = Resp.httpError 401 ∧
    Resp.httpError 401 ≠ Resp.httpError 403 := by decide

/-- C2 amended: deleting the user id "ADMIN" always fails and never changes
the state — with Forbidden (403) when the requester is ADMIN, and with
Unauthorized (401) for every other requester. -/
theorem delete_admin_never (st : AppState) :
    FUN_delete_user st "ADMIN"
      = (st, if st.session = some "ADMIN" then Resp.httpError 403
             else Resp.httpError 401) := by
  unfold FUN_delete_user
  by_cases h : st.session = some "ADMIN" <;> simp [h]

/-- C5: for every note whose owner resolves to A, deletion succeeds exactly
when the session identity equals A (deleting the row and redirecting); any
other session — a different user, "ADMIN", or no session at all — gets
`abort(401)` and the state is unchanged. -/
theorem delete_note_owner_only
    (st : AppState) (nid A : String)
    (hown : match_user_id_with_note_id st.db nid = some A) :
    (st.session = some A →
        FUN_delete_note st nid
          = ({ st with db := delete_note_from_db st.db nid }, .redirect "FUN_private")) ∧
    (st.session ≠ some A → FUN_delete_note st nid = (st, .httpError 401)) := by
  constructor
  · intro hA
    unfold FUN_delete_note
    rw [hown, hA]
    simp
  · intro hne
    unfold FUN_delete_note
    rw [hown]
    simp [hne]

/-- C5 witness: ADMIN (not the owner) is rejected with 401 and the note
survives; the owner ALICE deletes it. -/
theorem delete_note_owner_only_witness :
    (FUN_delete_note
        ⟨⟨[("ADMIN", "p"), ("ALICE", "a")], [⟨"n1", "ALICE", "hi"⟩], []⟩, [],
          some "ADMIN"⟩ "n1"
      = (⟨⟨[("ADMIN", "p"), ("ALICE", "a")], [⟨"n1", "ALICE", "hi"⟩], []⟩, [],
          some "ADMIN"⟩, .httpError 401)) ∧
    (FUN_delete_note
        ⟨⟨[("ADMIN", "p"), ("ALICE", "a")], [⟨"n1", "ALICE", "hi"⟩], []⟩, [],
          some "ALICE"⟩ "n1"
      = (⟨⟨[("ADMIN", "p"), ("ALICE", "a")], [], []⟩, [], some "ALICE"⟩,
         .redirect "FUN_private")) := by
  constructor
  · exact (delete_note_owner_only _ "n1" "ALICE" (by decide)).2 (by decide)
  · have h := (delete_note_owner_only
      ⟨⟨[("ADMIN", "p"), ("ALICE", "a")], [⟨"n1", "ALICE", "hi"⟩], []⟩, [],
        some "ALICE"⟩ "n1" "ALICE" (by decide)).1 rfl
    exact h.trans (by decide)

/-- C10: login uppercases the submitted id before the user lookup and the
password verification; a successful login sets the session to the
uppercased id, a failed one leaves the whole state (in particular the
session) unchanged, and both paths return the identical redirect to the
root page. -/
theorem login_behavior (st : AppState) (idF pwF : String) :
    (((list_users st.db).contains (strUpper idF)
        && verify st.db (strUpper idF) pwF) = true →
      FUN_login st idF pwF
        = ({ st with session := some (strUpper idF) }, .redirect "FUN_root")) ∧
    (((list_users st.db).contains (strUpper idF)
        && verify st.db (strUpper idF) pwF) = false →
      FUN_login st idF pwF = (st, .redirect "FUN_root")) := by
  constructor
  · intro h
    unfold FUN_login
    rw [h]
    simp
  · intro h
    unfold FUN_login
    rw [h]
    simp

/-- C10 witness: "alice" with the right password logs in as "ALICE"; with a
wrong password the state is untouched and the same root redirect is
returned. -/
theorem login_behavior_witness :
    (FUN_login ⟨⟨[("ALICE", "a")], [], []⟩, [], none⟩ "alice" "a"
      = (⟨⟨[("ALICE", "a")], [], []⟩, [], some "ALICE"⟩, .redirect "FUN_root")) ∧
    (FUN_login ⟨⟨[("ALICE", "a")], [], []⟩, [], none⟩ "alice" "wrong"
      = (⟨⟨[("ALICE", "a")], [], []⟩, [], none⟩, .redirect "FUN_root")) := by
  constructor
  · have h := (login_behavior ⟨⟨[("ALICE", "a")], [], []⟩, [], none⟩ "alice" "a").1
      (by decide)
    exact h.trans (by decide)
  · exact (login_behavior ⟨⟨[("ALICE", "a")], [], []⟩, [], none⟩ "alice" "wrong").2
      (by decide)

/-- C4 counterexample: (a) with requester ALICE and an image id that does
not resolve, delete-image answers `abort(401)` Unauthorized — not a
ResourceNotFound failure as the claim states; (b) when the metadata row
resolves to the requester but zero blob files match the id prefix, the
handler raises IndexError (an empty-sequence access) instead of failing
with IntegrityError. -/
theorem delete_image_notfound_cex :
    (FUN_delete_image ⟨⟨[("ALICE", "a")], [], []⟩, [], some "ALICE"⟩ "zzz").2
        = Resp.httpError 401 ∧
    (FUN_delete_image ⟨⟨[("ALICE", "a")], [], [⟨"u1", "ALICE", "c.png", "t"⟩]⟩,
        [], some "ALICE"⟩ "u1").2 = Resp.crash "IndexError" := by decide

/-- C4 amended: for an authenticated requester B, an image id that does not
resolve (in particular an already-deleted id, on a second delete attempt)
is rejected with `abort(401)` Unauthorized, leaving the state unchanged;
when the id resolves to B itself but no blob matches the id prefix, the
metadata row is deleted and the handler then crashes with IndexError; when
at least one blob matches, the first match is removed. -/
theorem delete_image_missing_behavior
    (st : AppState) (uid B : String) (hses : st.session = some B) :
    (match_user_id_with_image_uid st.db uid = none →
        FUN_delete_image st uid = (st, .httpError 401)) ∧
    (match_user_id_with_image_uid st.db uid = some B →
      st.blobs.filter (fun y => beforeDash y == uid) = [] →
        FUN_delete_image st uid
          = ({ st with db := delete_image_from_db st.db uid }, .crash "IndexError")) ∧
    (∀ b rest, match_user_id_with_image_uid st.db uid = some B →
      st.blobs.filter (fun y => beforeDash y == uid) = b :: rest →
        FUN_delete_image st uid
          = ({ st with db := delete_image_from_db st.db uid, blobs := st.blobs.erase b },
             .redirect "FUN_private")) := by
  refine ⟨?_, ?_, ?_⟩
  · intro hnone
    unfold FUN_delete_image
    rw [hnone, hses]
    simp
  · intro hown hfil
    unfold FUN_delete_image
    rw [hown, hses, hfil]
    simp
  · intro b rest hown hfil
    unfold FUN_delete_image
    rw [hown, hses, hfil]
    simp

/-- C4 witness for the amended claim: a second delete of an already-removed
id gets 401, and a resolving row with an empty pool crashes with
IndexError. -/
theorem delete_image_missing_behavior_witness :
    (FUN_delete_image ⟨⟨[("ALICE", "a")], [], []⟩, [], some "ALICE"⟩ "zzz"
      = (⟨⟨[("ALICE", "a")], [], []⟩, [], some "ALICE"⟩, .httpError 401)) ∧
    (FUN_delete_image ⟨⟨[("ALICE", "a")], [], [⟨"u1", "ALICE", "c.png", "t"⟩]⟩,
        [], some "ALICE"⟩ "u1"
      = (⟨⟨[("ALICE", "a")], [], []⟩, [], some "ALICE"⟩, .crash "IndexError")) := by
  constructor
  · exact (delete_image_missing_behavior _ "zzz" "ALICE" rfl).1 (by decide)
  · have h := (delete_image_missing_behavior
      ⟨⟨[("ALICE", "a")], [], [⟨"u1", "ALICE", "c.png", "t"⟩]⟩, [], some "ALICE"⟩
      "u1" "ALICE" rfl).2.1 (by decide) (by decide)
    exact h.trans (by decide)

/-- C6: with an ADMIN session and stored user ids normalized upper-case,
add-user rejects an id equal (ignoring case) to an existing id with the
duplicate-flagged admin page, rejects a non-duplicate id containing a space
or a single quote with the invalid-flagged admin page, and otherwise stores
the given id/password pair. -/
theorem add_user_validation
    (st : AppState) (idForm pwForm : String)
    (hses : st.session = some "ADMIN")
    (hup : ∀ u ∈ list_users st.db, strUpper u = u) :
    ((∃ u ∈ list_users st.db, strUpper u = strUpper idForm) →
        FUN_add_user st idForm pwForm = (st, .adminDuplicate)) ∧
    ((¬ ∃ u ∈ list_users st.db, strUpper u = strUpper idForm) →
      (strContains idForm spaceChar || strContains idForm quoteChar) = true →
        FUN_add_user st idForm pwForm = (st, .adminInvalid)) ∧
    ((¬ ∃ u ∈ list_users st.db, strUpper u = strUpper idForm) →
      (strContains idForm spaceChar || strContains idForm quoteChar) = false →
        FUN_add_user st idForm pwForm
          = ({ st with db := add_user st.db idForm pwForm }, .redirect "FUN_admin")) := by
  have hdup : (list_users st.db).contains (strUpper idForm) = true ↔
      ∃ u ∈ list_users st.db, strUpper u = strUpper idForm := by
    constructor
    · intro h
      have hm : strUpper idForm ∈ list_users st.db := by
        simpa using h
      exact ⟨strUpper idForm, hm, hup _ hm⟩
    · rintro ⟨u, hu, heq⟩
      have hu2 : u = strUpper idForm := by rw [← hup u hu, heq]
      subst hu2
      simpa using hu
  refine ⟨?_, ?_, ?_⟩
  · intro hex
    unfold FUN_add_user
    rw [hses, hdup.mpr hex]
    simp
  · intro hnex hsp
    have hc : (list_users st.db).contains (strUpper idForm) = false := by
      rcases Bool.eq_false_or_eq_true ((list_users st.db).contains (strUpper idForm))
        with h | h
      · exact absurd (hdup.mp h) hnex
      · exact h
    unfold FUN_add_user
    rw [hses, hc, hsp]
    simp
  · intro hnex hsp
    have hc : (list_users st.db).contains (strUpper idForm) = false := by
      rcases Bool.eq_false_or_eq_true ((list_users st.db).contains (strUpper idForm))
        with h | h
      · exact absurd (hdup.mp h) hnex
      · exact h
    unfold FUN_add_user
    rw [hses, hc, hsp]
    simp

/-- C6 witness: with users ADMIN and ALICE, adding "alice" is flagged
duplicate, adding "bad id" is flagged invalid, and adding "CAROL" stores
the pair. -/
theorem add_user_validation_witness :
    (FUN_add_user ⟨⟨[("ADMIN", "p"), ("ALICE", "a")], [], []⟩, [], some "ADMIN"⟩
        "alice" "x"
      = (⟨⟨[("ADMIN", "p"), ("ALICE", "a")], [], []⟩, [], some "ADMIN"⟩,
         .adminDuplicate)) ∧
    (FUN_add_user ⟨⟨[("ADMIN", "p"), ("ALICE", "a")], [], []⟩, [], some "ADMIN"⟩
        "bad id" "x"
      = (⟨⟨[("ADMIN", "p"), ("ALICE", "a")], [], []⟩, [], some "ADMIN"⟩,
         .adminInvalid)) ∧
    (FUN_add_user ⟨⟨[("ADMIN", "p"), ("ALICE", "a")], [], []⟩, [], some "ADMIN"⟩
        "CAROL" "x"
      = (⟨⟨[("ADMIN", "p"), ("ALICE", "a"), ("CAROL", "x")], [], []⟩, [],
          some "ADMIN"⟩, .redirect "FUN_admin")) := by
  refine ⟨?_, ?_, ?_⟩
  · exact (add_user_validation _ "alice" "x" rfl (by decide)).1 (by decide)
  · exact (add_user_validation _ "bad id" "x" rfl (by decide)).2.1 (by decide) (by decide)
  · have h := (add_user_validation
      ⟨⟨[("ADMIN", "p"), ("ALICE", "a")], [], []⟩, [], some "ADMIN"⟩
      "CAROL" "x" rfl (by decide)).2.2 (by decide) (by decide)
    exact h.trans (by decide)

/-- C7: `allowed_file` checks the final extension segment of the original
filename, lower-cased, against the allow-list {png, jpg, jpeg, gif}; any
upload whose filename fails that check (for instance "malware.exe") is
answered with the plain redirect to the private page and the state — blob
store and metadata alike — is completely unchanged. -/
theorem upload_rejects_bad_extension
    (secureF sha1F : String → String) (st : AppState) (fn now : String)
    (hbad : allowed_file fn = false) :
    FUN_upload_image secureF sha1F st (.present fn) now = (st, .redirect "FUN_private")
    ∧ (∀ f, allowed_file f
        = (strContains f '.'
            && ALLOWED_EXTENSIONS.contains (strLower (afterLastDot f))))
    ∧ allowed_file "malware.exe" = false := by
  refine ⟨?_, fun f => rfl, by decide⟩
  unfold FUN_upload_image
  by_cases he : fn = ""
  · simp [he]
  · simp [he, hbad]

/-- C7 witness: uploading "malware.exe" leaves an arbitrary concrete state
untouched and redirects. -/
theorem upload_rejects_bad_extension_witness :
    FUN_upload_image (fun s => s) (fun s => s)
        ⟨⟨[("ALICE", "a")], [], []⟩, [], some "ALICE"⟩ (.present "malware.exe") "T"
      = (⟨⟨[("ALICE", "a")], [], []⟩, [], some "ALICE"⟩, .redirect "FUN_private") :=
  (upload_rejects_bad_extension (fun s => s) (fun s => s)
    ⟨⟨[("ALICE", "a")], [], []⟩, [], some "ALICE"⟩ "malware.exe" "T" (by decide)).1

/-- C8: an accepted upload (session user u, non-empty allowed filename) at
timestamp `now` writes exactly one blob named
`sha1(now ++ secure_filename(fn)) ++ "-" ++ secure_filename(fn)` and
appends exactly one metadata row whose uid is that hash, whose owner is u,
whose filename field is the sanitized filename, and whose timestamp is
`now`. -/
theorem upload_roundtrip
    (secureF sha1F : String → String) (st : AppState) (u fn now : String)
    (hses : st.session = some u) (hne : fn ≠ "") (hok : allowed_file fn = true) :
    FUN_upload_image secureF sha1F st (.present fn) now
      = ({ st with
            blobs := st.blobs ++ [sha1F (now ++ secureF fn) ++ "-" ++ secureF fn],
            db := image_upload_record st.db (sha1F (now ++ secureF fn)) u
              (secureF fn) now },
         .redirect "FUN_private") := by
  unfold FUN_upload_image
  simp [hne, hok, hses]

/-- C8 witness: with the identity sanitized-filename and hash stand-ins,
ALICE's upload of "photo.JPG" at time "T" stores the blob
"Tphoto.JPG-photo.JPG" and the metadata row ("Tphoto.JPG", ALICE,
"photo.JPG", "T"). -/
theorem upload_roundtrip_witness :
    FUN_upload_image (fun s => s) (fun s => s)
        ⟨⟨[("ALICE", "a")], [], []⟩, [], some "ALICE"⟩ (.present "photo.JPG") "T"
      = (⟨⟨[("ALICE", "a")], [],
            [⟨"Tphoto.JPG", "ALICE", "photo.JPG", "T"⟩]⟩,
          ["Tphoto.JPG-photo.JPG"], some "ALICE"⟩, .redirect "FUN_private") := by
  have h := upload_roundtrip (fun s => s) (fun s => s)
    ⟨⟨[("ALICE", "a")], [], []⟩, [], some "ALICE"⟩ "ALICE" "photo.JPG" "T"
    rfl (by decide) (by decide)
  exact h.trans (by decide)

/-- C9 (the claim the code violates): with no authenticated session, the
write-note handler reads `session["current_user"]` and crashes with
KeyError instead of failing unauthorized, and the upload handler — for an
accepted filename — first writes the blob into the pool and only then
crashes with KeyError, so the write is partially performed. -/
theorem write_without_session_crashes
    (secureF sha1F : String → String) (st : AppState) (text nid fn now : String)
    (hses : st.session = none) (hne : fn ≠ "") (hok : allowed_file fn = true) :
    FUN_write_note st text nid = (st, .crash "KeyError") ∧
    FUN_upload_image secureF sha1F st (.present fn) now
      = ({ st with
            blobs := st.blobs ++ [sha1F (now ++ secureF fn) ++ "-" ++ secureF fn] },
         .crash "KeyError") := by
  constructor
  · unfold FUN_write_note
    rw [hses]
  · unfold FUN_upload_image
    simp [hne, hok, hses]

/-- C9 witness: at the concrete failing input (no session, upload of
"a.png"), the note write crashes with KeyError and the upload leaves the
blob "Ta.png-a.png" behind before crashing. -/
theorem write_without_session_crashes_witness :
    (FUN_write_note ⟨⟨[("ALICE", "a")], [], []⟩, [], none⟩ "hi" "n1"
      = (⟨⟨[("ALICE", "a")], [], []⟩, [], none⟩, .crash "KeyError")) ∧
    (FUN_upload_image (fun s => s) (fun s => s)
        ⟨⟨[("ALICE", "a")], [], []⟩, [], none⟩ (.present "a.png") "T"
      = (⟨⟨[("ALICE", "a")], [], []⟩, ["Ta.png-a.png"], none⟩,
         .crash "KeyError")) := by
  have h := write_without_session_crashes (fun s => s) (fun s => s)
    ⟨⟨[("ALICE", "a")], [], []⟩, [], none⟩ "hi" "n1" "a.png" "T"
    rfl (by decide) (by decide)
  exact ⟨h.1, h.2.trans (by decide)⟩

/-- Erasing an element that fails the predicate leaves the filter
unchanged. -/
theorem filter_erase_of_neg (p : String → Bool) (l : List String) (a : String)
    (hpa : p a = false) : (l.erase a).filter p = l.filter p := by
  induction l with
  | nil => rfl
  | cons x xs ih =>
    by_cases hx : x = a
    · subst hx
      rw [List.erase_cons_head, List.filter_cons_of_neg (by simp [hpa])]
    · rw [List.erase_cons_tail (by simp [hx]), List.filter_cons, List.filter_cons, ih]

/-- If the filter picks out exactly `[b]`, then after erasing `b` nothing
passes the filter any more. -/
theorem filter_erase_eq_nil (p : String → Bool) (l : List String) (b : String)
    (h : l.filter p = [b]) : (l.erase b).filter p = [] := by
  induction l with
  | nil => simp at h
  | cons x xs ih =>
    by_cases hpx : p x = true
    · rw [List.filter_cons_of_pos hpx] at h
      simp only [List.cons.injEq] at h
      obtain ⟨rfl, hxs⟩ := h
      rw [List.erase_cons_head]
      exact hxs
    · rw [List.filter_cons_of_neg hpx] at h
      by_cases hxb : x = b
      · exfalso
        subst hxb
        have hmem : x ∈ xs.filter p := by
          rw [h]
          exact List.mem_singleton_self x
        exact hpx (List.of_mem_filter hmem)
      · rw [List.erase_cons_tail (by simp [hxb]), List.filter_cons_of_neg hpx]
        exact ih h

/-- The blob-removal loop of `FUN_delete_user` succeeds when every listed
uid has exactly one matching blob and the uids are distinct; afterwards no
surviving blob matches any of the uids, and every surviving blob was
already in the pool. -/
theorem removeBlobsFor_ok (uids : List String) (blobs : List String)
    (hnd : uids.Nodup)
    (hone : ∀ u ∈ uids, ∃ b, blobs.filter (fun y => beforeDash y == u) = [b]) :
    ∃ blobs2, removeBlobsFor blobs uids = .ok blobs2 ∧
      (∀ u ∈ uids, ∀ y ∈ blobs2, ¬(beforeDash y == u) = true) ∧
      (∀ y ∈ blobs2, y ∈ blobs) := by
  induction uids generalizing blobs with
  | nil => exact ⟨blobs, rfl, by simp, fun y hy => hy⟩
  | cons f rest ih =>
    obtain ⟨b, hb⟩ := hone f (List.mem_cons_self f rest)
    have hstep : removeBlobsFor blobs (f :: rest) = removeBlobsFor (blobs.erase b) rest := by
      conv_lhs => unfold removeBlobsFor
      rw [hb]
    have hnd2 : rest.Nodup := (List.nodup_cons.mp hnd).2
    have hfni : f ∉ rest := (List.nodup_cons.mp hnd).1
    have hbf : beforeDash b = f := by
      have hmb : b ∈ blobs.filter (fun y => beforeDash y == f) := by
        rw [hb]
        exact List.mem_singleton_self b
      simpa using List.of_mem_filter hmb
    have hone2 : ∀ u ∈ rest,
        ∃ c, (blobs.erase b).filter (fun y => beforeDash y == u) = [c] := by
      intro u hu
      obtain ⟨c, hc⟩ := hone u (List.mem_cons_of_mem f hu)
      have hfu : f ≠ u := fun hh => hfni (hh ▸ hu)
      refine ⟨c, ?_⟩
      rw [filter_erase_of_neg _ _ _ (by simp [hbf, hfu]), hc]
    obtain ⟨blobs2, hrun, hclean, hsub⟩ := ih (blobs.erase b) hnd2 hone2
    refine ⟨blobs2, hstep.trans hrun, ?_,
      fun y hy => List.erase_subset b blobs (hsub y hy)⟩
    intro u hu y hy
    rcases List.mem_cons.mp hu with rfl | hu2
    · have hnil : (blobs.erase b).filter (fun y => beforeDash y == u) = [] :=
        filter_erase_eq_nil _ _ _ hb
      intro hmatch
      have hmem : y ∈ (blobs.erase b).filter (fun y => beforeDash y == u) :=
        List.mem_filter.mpr ⟨hsub y hy, hmatch⟩
      rw [hnil] at hmem
      exact List.not_mem_nil y hmem
    · exact hclean u hu2 y hy

/-- After filtering out the rows owned by U, a key whose unique row was
owned by U no longer resolves. -/
theorem find_none_after_owner_filter {α : Type} (l : List α) (key ow : α → String)
    (hnd : (l.map key).Nodup) (k U : String) (n : α)
    (hfind : l.find? (fun x => key x == k) = some n) (hn : ow n = U) :
    (l.filter (fun x => ow x != U)).find? (fun x => key x == k) = none := by
  rw [List.find?_eq_none]
  intro m hm hkm
  have hm2 := List.mem_filter.mp hm
  have hnmem := List.mem_of_find?_eq_some hfind
  have hkmk : key m = k := by simpa using hkm
  have hknk : key n = k := by simpa using List.find?_some hfind
  have hmn : m = n := List.inj_on_of_nodup_map hnd hm2.1 hnmem (by rw [hkmk, hknk])
  subst hmn
  have hown := hm2.2
  simp [hn] at hown

/-- C3: with an ADMIN session, deleting a user U ≠ "ADMIN" — under the
store-integrity invariants that image uids are distinct, note ids are
distinct, and exactly one blob matches each owned image's uid — succeeds
with the redirect to the admin page; afterwards the owner lookup of every
note and every image U owned resolves to none (NotFound), and no blob whose
before-dash prefix matches any of U's image uids remains in the pool. -/
theorem delete_user_cascade
    (st : AppState) (U : String)
    (hses : st.session = some "ADMIN") (hU : U ≠ "ADMIN")
    (huid : (st.db.images.map (fun i => i.uid)).Nodup)
    (hnid : (st.db.notes.map (fun n => n.nid)).Nodup)
    (hone : ∀ i ∈ st.db.images, i.owner = U →
        (st.blobs.filter (fun y => beforeDash y == i.uid)).length = 1) :
    ∃ blobs2,
      FUN_delete_user st U
        = ({ st with blobs := blobs2, db := delete_user_from_db st.db U },
           .redirect "FUN_admin") ∧
      (∀ nid, match_user_id_with_note_id st.db nid = some U →
          match_user_id_with_note_id (delete_user_from_db st.db U) nid = none) ∧
      (∀ uid, match_user_id_with_image_uid st.db uid = some U →
          match_user_id_with_image_uid (delete_user_from_db st.db U) uid = none) ∧
      (∀ uid, match_user_id_with_image_uid st.db uid = some U →
          ∀ y ∈ blobs2, beforeDash y ≠ uid) := by
  have howned : ∀ u, u ∈ (list_images_for_user st.db U).map (fun x => x.1) ↔
      ∃ i ∈ st.db.images, i.owner = U ∧ i.uid = u := by
    intro u
    simp [list_images_for_user, List.mem_map, List.mem_filter, and_assoc]
  have hmapeq : (list_images_for_user st.db U).map (fun x => x.1)
      = (st.db.images.filter (fun i => i.owner == U)).map (fun i => i.uid) := by
    simp [list_images_for_user, List.map_map]
  have hndo : ((list_images_for_user st.db U).map (fun x => x.1)).Nodup := by
    rw [hmapeq]
    exact (List.Sublist.map (fun i => i.uid)
      (List.filter_sublist st.db.images)).nodup huid
  have hone2 : ∀ u ∈ (list_images_for_user st.db U).map (fun x => x.1),
      ∃ b, st.blobs.filter (fun y => beforeDash y == u) = [b] := by
    intro u hu
    obtain ⟨i, hi, hio, hiu⟩ := (howned u).mp hu
    subst hiu
    exact List.length_eq_one.mp (hone i hi hio)
  obtain ⟨blobs2, hrun, hclean, hsub⟩ :=
    removeBlobsFor_ok ((list_images_for_user st.db U).map (fun x => x.1))
      st.blobs hndo hone2
  refine ⟨blobs2, ?_, ?_, ?_, ?_⟩
  · unfold FUN_delete_user
    rw [hses, hrun]
    simp [hU]
  · intro nid h
    unfold match_user_id_with_note_id at h ⊢
    obtain ⟨n, hfind, hn⟩ := Option.map_eq_some'.mp h
    have hnone := find_none_after_owner_filter st.db.notes (fun n => n.nid)
      (fun n => n.owner) hnid nid U n hfind hn
    simp only [delete_user_from_db]
    rw [hnone]
    rfl
  · intro uid h
    unfold match_user_id_with_image_uid at h ⊢
    obtain ⟨i, hfind, hi⟩ := Option.map_eq_some'.mp h
    have hnone := find_none_after_owner_filter st.db.images (fun i => i.uid)
      (fun i => i.owner) huid uid U i hfind hi
    simp only [delete_user_from_db]
    rw [hnone]
    rfl
  · intro uid h y hy
    unfold match_user_id_with_image_uid at h
    obtain ⟨i, hfind, hiU⟩ := Option.map_eq_some'.mp h
    have hiu : i.uid = uid := by simpa using List.find?_some hfind
    have hmem : uid ∈ (list_images_for_user st.db U).map (fun x => x.1) :=
      (howned uid).mpr ⟨i, List.mem_of_find?_eq_some hfind, hiU, hiu⟩
    have hmatch := hclean uid hmem y hy
    simpa using hmatch

/-- C3 witness: ADMIN deletes BOB; BOB's note "n1" and image "u1" no longer
resolve and no blob with prefix "u1" survives (only "other" does). -/
theorem delete_user_cascade_witness :
    ∃ blobs2,
      FUN_delete_user
          ⟨⟨[("ADMIN", "p"), ("BOB", "b")], [⟨"n1", "BOB", "hi"⟩],
            [⟨"u1", "BOB", "c.png", "t"⟩]⟩, ["u1-c.png", "other"], some "ADMIN"⟩ "BOB"
        = (⟨⟨[("ADMIN", "p")], [], []⟩, blobs2, some "ADMIN"⟩,
           .redirect "FUN_admin") ∧
      (∀ y ∈ blobs2, beforeDash y ≠ "u1") := by
  obtain ⟨blobs2, heq, hnotes, himgs, hblobs⟩ := delete_user_cascade
    ⟨⟨[("ADMIN", "p"), ("BOB", "b")], [⟨"n1", "BOB", "hi"⟩],
      [⟨"u1", "BOB", "c.png", "t"⟩]⟩, ["u1-c.png", "other"], some "ADMIN"⟩ "BOB"
    rfl (by decide) (by decide) (by decide) (by decide)
  exact ⟨blobs2, heq.trans (by rfl), hblobs "u1" (by decide)⟩
